import Mathlib

/-!
Verification development for the simple-redis repository: a shallow embedding
of its RESP wire codec (per-type decoder files `bulk_string.rs`, `array.rs`,
`frame.rs`, ... together with the helper functions `extract_simple_resp`,
`find_crlf`, `parse_length`, `check_resp2_null`, `calc_total_length` from
`resp/decode.rs`), of the concurrent store (`backend/mod.rs`, modelled
sequentially), of the command layer (`cmd/*.rs`) and of the per-connection
loop (`network.rs`).

Byte buffers are `List Nat` (each entry is one byte).  Rust `String` values
are likewise modelled by their UTF-8 byte lists.  `f64` payloads of Double
frames are abstracted by the byte token that appeared on the wire, with a
recognizer for Rust's `f64::from_str` grammar; no settled claim depends on
double values.  Machine-integer casts (`usize as i64`) are modelled with an
explicit wrap at 2^64.
-/

namespace SimpleRedis

abbrev Bytes := List Nat

/-- UTF-8 bytes of an ASCII string literal (all source literals are ASCII). -/
def ascii (s : String) : Bytes := s.data.map Char.toNat

/-- The `RespFrame` enum of `resp/frame.rs`.  `Map` and `Set` are modelled as
entry lists built by the decoder's `HashMap::insert` / `HashSet::insert`
calls; `Double` carries the wire token (see module comment). -/
inductive RespFrame : Type where
  | SimpleString (s : Bytes)
  | SimpleError (s : Bytes)
  | Integer (i : Int)
  | BulkString (b : Bytes)
  | Array (a : List RespFrame)
  | Null
  | Boolean (b : Bool)
  | Double (tok : Bytes)
  | Map (entries : List (RespFrame × RespFrame))
  | Set (elems : List RespFrame)
deriving Repr

-- Structural equality of frames (Rust's derived `PartialEq`).
mutual

def frameBeq : RespFrame → RespFrame → Bool
  | .SimpleString a, .SimpleString b => a == b
  | .SimpleError a, .SimpleError b => a == b
  | .Integer a, .Integer b => a == b
  | .BulkString a, .BulkString b => a == b
  | .Array a, .Array b => frameListBeq a b
  | .Null, .Null => true
  | .Boolean a, .Boolean b => a == b
  | .Double a, .Double b => a == b
  | .Map a, .Map b => framePairsBeq a b
  | .Set a, .Set b => frameListBeq a b
  | _, _ => false

def frameListBeq : List RespFrame → List RespFrame → Bool
  | [], [] => true
  | a :: as, b :: bs => frameBeq a b && frameListBeq as bs
  | _, _ => false

def framePairsBeq : List (RespFrame × RespFrame) → List (RespFrame × RespFrame) → Bool
  | [], [] => true
  | (k, v) :: as, (k2, v2) :: bs => frameBeq k k2 && frameBeq v v2 && framePairsBeq as bs
  | _, _ => false

end

mutual

theorem frameBeq_iff : (a b : RespFrame) → (frameBeq a b = true ↔ a = b)
  | .SimpleString a, .SimpleString b => by simp [frameBeq]
  | .SimpleError a, .SimpleError b => by simp [frameBeq]
  | .Integer a, .Integer b => by simp [frameBeq]
  | .BulkString a, .BulkString b => by simp [frameBeq]
  | .Array a, .Array b => by simp [frameBeq, frameListBeq_iff a b]
  | .Null, .Null => by simp [frameBeq]
  | .Boolean a, .Boolean b => by simp [frameBeq]
  | .Double a, .Double b => by simp [frameBeq]
  | .Map a, .Map b => by simp [frameBeq, framePairsBeq_iff a b]
  | .Set a, .Set b => by simp [frameBeq, frameListBeq_iff a b]
  | .SimpleString _, .SimpleError _ | .SimpleString _, .Integer _
  | .SimpleString _, .BulkString _ | .SimpleString _, .Array _
  | .SimpleString _, .Null | .SimpleString _, .Boolean _
  | .SimpleString _, .Double _ | .SimpleString _, .Map _
  | .SimpleString _, .Set _
  | .SimpleError _, .SimpleString _ | .SimpleError _, .Integer _
  | .SimpleError _, .BulkString _ | .SimpleError _, .Array _
  | .SimpleError _, .Null | .SimpleError _, .Boolean _
  | .SimpleError _, .Double _ | .SimpleError _, .Map _
  | .SimpleError _, .Set _
  | .Integer _, .SimpleString _ | .Integer _, .SimpleError _
  | .Integer _, .BulkString _ | .Integer _, .Array _
  | .Integer _, .Null | .Integer _, .Boolean _
  | .Integer _, .Double _ | .Integer _, .Map _
  | .Integer _, .Set _
  | .BulkString _, .SimpleString _ | .BulkString _, .SimpleError _
  | .BulkString _, .Integer _ | .BulkString _, .Array _
  | .BulkString _, .Null | .BulkString _, .Boolean _
  | .BulkString _, .Double _ | .BulkString _, .Map _
  | .BulkString _, .Set _
  | .Array _, .SimpleString _ | .Array _, .SimpleError _
  | .Array _, .Integer _ | .Array _, .BulkString _
  | .Array _, .Null | .Array _, .Boolean _
  | .Array _, .Double _ | .Array _, .Map _
  | .Array _, .Set _
  | .Null, .SimpleString _ | .Null, .SimpleError _
  | .Null, .Integer _ | .Null, .BulkString _
  | .Null, .Array _ | .Null, .Boolean _
  | .Null, .Double _ | .Null, .Map _
  | .Null, .Set _
  | .Boolean _, .SimpleString _ | .Boolean _, .SimpleError _
  | .Boolean _, .Integer _ | .Boolean _, .BulkString _
  | .Boolean _, .Array _ | .Boolean _, .Null
  | .Boolean _, .Double _ | .Boolean _, .Map _
  | .Boolean _, .Set _
  | .Double _, .SimpleString _ | .Double _, .SimpleError _
  | .Double _, .Integer _ | .Double _, .BulkString _
  | .Double _, .Array _ | .Double _, .Null
  | .Double _, .Boolean _ | .Double _, .Map _
  | .Double _, .Set _
  | .Map _, .SimpleString _ | .Map _, .SimpleError _
  | .Map _, .Integer _ | .Map _, .BulkString _
  | .Map _, .Array _ | .Map _, .Null
  | .Map _, .Boolean _ | .Map _, .Double _
  | .Map _, .Set _
  | .Set _, .SimpleString _ | .Set _, .SimpleError _
  | .Set _, .Integer _ | .Set _, .BulkString _
  | .Set _, .Array _ | .Set _, .Null
  | .Set _, .Boolean _ | .Set _, .Double _
  | .Set _, .Map _ => by simp [frameBeq]

theorem frameListBeq_iff : (a b : List RespFrame) → (frameListBeq a b = true ↔ a = b)
  | [], [] => by simp [frameListBeq]
  | _ :: _, [] => by simp [frameListBeq]
  | [], _ :: _ => by simp [frameListBeq]
  | x :: xs, y :: ys => by
    simp [frameListBeq, frameBeq_iff x y, frameListBeq_iff xs ys]

theorem framePairsBeq_iff :
    (a b : List (RespFrame × RespFrame)) → (framePairsBeq a b = true ↔ a = b)
  | [], [] => by simp [framePairsBeq]
  | _ :: _, [] => by simp [framePairsBeq]
  | [], _ :: _ => by simp [framePairsBeq]
  | (k, v) :: xs, (k2, v2) :: ys => by
    simp [framePairsBeq, frameBeq_iff k k2, frameBeq_iff v v2, framePairsBeq_iff xs ys]

end

instance : DecidableEq RespFrame := fun a b =>
  decidable_of_iff (frameBeq a b = true) (frameBeq_iff a b)

/-- `RespError` of `resp/mod.rs`, plus two embedding-level outcomes:
`panic` models a Rust runtime panic (out-of-range slice index), and
`fuelExhausted` is an artifact of the fueled recursion, unreachable when the
fuel exceeds the buffer length. -/
inductive RespErr : Type where
  | invalidFrame
  | frameNotComplete
  | invalidFrameType
  | invalidFrameLength
  | parseIntError
  | parseFloatError
  | panic
  | fuelExhausted
deriving DecidableEq, Repr

/-- Loop body of `find_crlf` (`decode.rs`): scan `i` over `1..buf.len()-1`
counting CRLF pairs until the `nth` one.  `fuel` bounds the iteration count
(`buf.length` always suffices since `i` starts at 1). -/
def findCrlfGo (buf : Bytes) (nth : Nat) : Nat → Nat → Nat → Option Nat
  | 0, _, _ => none
  | fuel + 1, i, count =>
    if i + 1 < buf.length then
      if buf.getD i 0 = 13 ∧ buf.getD (i + 1) 0 = 10 then
        if count + 1 = nth then some i
        else findCrlfGo buf nth fuel (i + 1) (count + 1)
      else findCrlfGo buf nth fuel (i + 1) count
    else none

/-- `find_crlf(buf, nth)` of `decode.rs`: index of the nth CR of a CRLF pair,
searching from index 1. -/
def find_crlf (buf : Bytes) (nth : Nat) : Option Nat :=
  findCrlfGo buf nth buf.length 1 0

/-- `extract_simple_resp(buf, prefix)` of `decode.rs`: needs at least 3 bytes,
the given prefix, and a CRLF; returns the index of the CR. -/
def extract_simple_resp (buf : Bytes) (pfx : Bytes) : Except RespErr Nat :=
  if buf.length < 3 then .error .frameNotComplete
  else if ¬ pfx.isPrefixOf buf then .error .invalidFrameType
  else match find_crlf buf 1 with
    | some e => .ok e
    | none => .error .frameNotComplete

def isDigit (b : Nat) : Bool := 48 ≤ b && b ≤ 57

def digitsToNat (acc : Nat) : Bytes → Nat
  | [] => acc
  | b :: t => digitsToNat (acc * 10 + (b - 48)) t

def allDigits : Bytes → Bool
  | [] => true
  | b :: t => isDigit b && allDigits t

/-- Rust `str::parse::<usize>`: optional leading `+`, then one or more ASCII
digits.  (A leading `-` is rejected for unsigned targets.  Overflow above
`usize::MAX` is not modelled; no claim involves such lengths.) -/
def parseUsize (s : Bytes) : Option Nat :=
  match s with
  | [] => none
  | 43 :: t => if t ≠ [] ∧ allDigits t then some (digitsToNat 0 t) else none
  | _ => if allDigits s ∧ s ≠ [] then some (digitsToNat 0 s) else none

/-- Rust `str::parse::<i64>`: optional sign, digits, two's-complement range
check. -/
def parseI64 (s : Bytes) : Option Int :=
  let core : Bytes → Option Int := fun d =>
    if d ≠ [] ∧ allDigits d then some (Int.ofNat (digitsToNat 0 d)) else none
  let signed : Option Int :=
    match s with
    | 43 :: t => core t
    | 45 :: t => (core t).map (fun n => -n)
    | _ => core s
  match signed with
  | some n => if -(2 ^ 63) ≤ n ∧ n < 2 ^ 63 then some n else none
  | none => none

/-- `parse_length(buf, prefix)` of `decode.rs`: extract the header line and
parse `buf[prefix.len()..end]` as a usize. -/
def parse_length (buf : Bytes) (pfx : Bytes) : Except RespErr (Nat × Nat) :=
  match extract_simple_resp buf pfx with
  | .error e => .error e
  | .ok e =>
    match parseUsize ((buf.drop pfx.length).take (e - pfx.length)) with
    | some n => .ok (e, n)
    | none => .error .parseIntError

/-- `check_resp2_null(buf, prefix)` of `decode.rs`: does the buffer start with
`<prefix>-1\r\n`? -/
def check_resp2_null (buf : Bytes) (pfx : Bytes) : Bool :=
  (pfx ++ [45, 49, 13, 10]).isPrefixOf buf

/-- Recognizer for Rust's `f64::from_str` grammar (optional sign, then
`inf`/`infinity`/`nan` case-insensitively, or digits with optional point and
optional exponent).  Stands in for `str::parse::<f64>` succeeding. -/
def lowerByte (b : Nat) : Nat := if 65 ≤ b ∧ b ≤ 90 then b + 32 else b

def f64Body (s : Bytes) : Bool :=
  let low := s.map lowerByte
  if low = ascii "inf" ∨ low = ascii "infinity" ∨ low = ascii "nan" then true
  else
    let (mantissa, expo) :=
      match s.findIdx? (fun b => lowerByte b = 101) with
      | some i => (s.take i, some (s.drop (i + 1)))
      | none => (s, none)
    let mantOk :=
      match mantissa.findIdx? (fun b => b = 46) with
      | some i =>
        let ip := mantissa.take i
        let fp := mantissa.drop (i + 1)
        allDigits ip && allDigits fp && (ip ≠ [] ∨ fp ≠ [])
      | none => mantissa ≠ [] && allDigits mantissa
    let expOk :=
      match expo with
      | none => true
      | some e =>
        match e with
        | 43 :: t => t ≠ [] && allDigits t
        | 45 :: t => t ≠ [] && allDigits t
        | _ => e ≠ [] && allDigits e
    mantOk && expOk

def f64Accepts (s : Bytes) : Bool :=
  match s with
  | 43 :: t => f64Body t
  | 45 :: t => f64Body t
  | _ => f64Body s

/-- `HashMap::insert` on the entry-list model: replace the value of an
existing key in place, else append the new entry. -/
def mapInsert (l : List (RespFrame × RespFrame)) (k v : RespFrame) :
    List (RespFrame × RespFrame) :=
  match l with
  | [] => [(k, v)]
  | (k2, v2) :: t => if k2 = k then (k, v) :: t else (k2, v2) :: mapInsert t k v

/-- `HashSet::insert` on the element-list model: add the element only if it is
not already present. -/
def setInsert (l : List RespFrame) (f : RespFrame) : List RespFrame :=
  if l.contains f then l else l ++ [f]

/-!
The decoder.  All recursion is fueled: every function matches on its fuel and
passes the predecessor to every call, so termination is structural on `Nat`.
The entry points supply `buf.length + 1` fuel; the error `.fuelExhausted` is
unreachable then (each recursive step strictly consumes buffer bytes), and no
theorem below relies on the fuel bound: universally-quantified theorems only
traverse non-recursive paths.
-/

mutual

/-- `RespFrame::expect_length` of `resp/frame.rs`: dispatch on the first byte
to the per-kind `expect_length`.  An empty buffer (or an unknown first byte)
is `InvalidFrame` — the `expect_length` dispatch, unlike `decode`, has no
arm returning `FrameNotComplete` for an empty buffer. -/
def expectLengthF : Nat → Bytes → Except RespErr Nat
  | 0, _ => .error .fuelExhausted
  | fuel + 1, buf =>
    match buf.head? with
    | some 43 =>
      match extract_simple_resp buf [43] with
      | .error er => .error er
      | .ok e => .ok (e + 2)
    | some 45 =>
      match extract_simple_resp buf [45] with
      | .error er => .error er
      | .ok e => .ok (e + 2)
    | some 58 =>
      match extract_simple_resp buf [58] with
      | .error er => .error er
      | .ok e => .ok (e + 2)
    | some 36 =>
      if check_resp2_null buf [36] then .ok 5
      else
        match parse_length buf [36] with
        | .error er => .error er
        | .ok (e, len) => .ok (e + 2 + len + 2)
    | some 42 =>
      match parse_length buf [42] with
      | .error er => .error er
      | .ok (e, len) => calc_total_length fuel buf e len 42
    | some 95 => .ok 3
    | some 35 => .ok 4
    | some 44 =>
      match extract_simple_resp buf [44] with
      | .error er => .error er
      | .ok e => .ok (e + 2)
    | some 37 =>
      match parse_length buf [37] with
      | .error er => .error er
      | .ok (e, len) => calc_total_length fuel buf e len 37
    | some 126 =>
      match parse_length buf [126] with
      | .error er => .error er
      | .ok (e, len) => calc_total_length fuel buf e len 126
    | _ => .error .invalidFrame
termination_by structural fuel _ => fuel

/-- The `"*" | "~"` loop of `calc_total_length` (`decode.rs`): sum the
expected lengths of `n` children.  `data = &data[l..]` panics when `l`
exceeds the remaining slice length; `.error .panic` models that. -/
def calcLoop : Nat → Nat → Bytes → Nat → Except RespErr Nat
  | 0, _, _, _ => .error .fuelExhausted
  | _ + 1, 0, _, total => .ok total
  | fuel + 1, n + 1, data, total =>
    match expectLengthF fuel data with
    | .error er => .error er
    | .ok l =>
      if data.length < l then .error .panic
      else calcLoop fuel n (data.drop l) (total + l)
termination_by structural fuel _ _ _ => fuel

/-- The `"%"` loop of `calc_total_length` (`decode.rs`): key and value
lengths per entry, with the same out-of-range panic on slicing. -/
def calcPairLoop : Nat → Nat → Bytes → Nat → Except RespErr Nat
  | 0, _, _, _ => .error .fuelExhausted
  | _ + 1, 0, _, total => .ok total
  | fuel + 1, n + 1, data, total =>
    match expectLengthF fuel data with
    | .error er => .error er
    | .ok kl =>
      if data.length < kl then .error .panic
      else
        match expectLengthF fuel (data.drop kl) with
        | .error er => .error er
        | .ok vl =>
          if (data.drop kl).length < vl then .error .panic
          else calcPairLoop fuel n ((data.drop kl).drop vl) (total + (kl + vl))
termination_by structural fuel _ _ _ => fuel

/-- `calc_total_length(buf, end, len, prefix)` of `decode.rs`. -/
def calc_total_length : Nat → Bytes → Nat → Nat → Nat → Except RespErr Nat
  | 0, _, _, _, _ => .error .fuelExhausted
  | fuel + 1, buf, e, len, pfxByte =>
    let total := e + 2
    let data := buf.drop total
    if pfxByte = 42 ∨ pfxByte = 126 then calcLoop fuel len data total
    else if pfxByte = 37 then calcPairLoop fuel len data total
    else .ok (len + total)
termination_by structural fuel _ _ _ _ => fuel

end

mutual

/-- `RespFrame::decode` of `resp/frame.rs`: dispatch on the first byte to the
per-kind `decode` (`simple_string.rs`, `bulk_string.rs`, `array.rs`, ...).
Returns the decoded frame together with the buffer bytes left after the
consumed frame. -/
def decodeF : Nat → Bytes → Except RespErr (RespFrame × Bytes)
  | 0, _ => .error .fuelExhausted
  | fuel + 1, buf =>
    match buf.head? with
    | none => .error .frameNotComplete
    | some 43 =>
      match extract_simple_resp buf [43] with
      | .error er => .error er
      | .ok e => .ok (.SimpleString ((buf.drop 1).take (e - 1)), buf.drop (e + 2))
    | some 45 =>
      match extract_simple_resp buf [45] with
      | .error er => .error er
      | .ok e => .ok (.SimpleError ((buf.drop 1).take (e - 1)), buf.drop (e + 2))
    | some 58 =>
      match extract_simple_resp buf [58] with
      | .error er => .error er
      | .ok e =>
        match parseI64 ((buf.drop 1).take (e - 1)) with
        | some n => .ok (.Integer n, buf.drop (e + 2))
        | none => .error .parseIntError
    | some 36 =>
      if check_resp2_null buf [36] then .ok (.BulkString [], buf.drop 5)
      else
        match parse_length buf [36] with
        | .error er => .error er
        | .ok (e, len) =>
          let actLen := (buf.drop (e + 2)).length
          if actLen < len + 2 then .error .frameNotComplete
          else
            let data := (buf.drop (e + 2)).take (len + 2)
            .ok (.BulkString (data.take len), buf.drop (e + 2 + (len + 2)))
    | some 42 =>
      if check_resp2_null buf [42] then .ok (.Array [], buf.drop 5)
      else
        match parse_length buf [42] with
        | .error er => .error er
        | .ok (e, n) =>
          match calc_total_length (fuel + 1) buf e n 42 with
          | .error er => .error er
          | .ok total =>
            if buf.length < total then .error .frameNotComplete
            else
              match decodeListF fuel n (buf.drop (e + 2)) with
              | .error er => .error er
              | .ok (frames, rest) => .ok (.Array frames, rest)
    | some 95 =>
      match extract_simple_resp buf [95] with
      | .error er => .error er
      | .ok e => .ok (.Null, buf.drop (e + 2))
    | some 35 =>
      match extract_simple_resp buf [35] with
      | .error er => .error er
      | .ok e =>
        let s := (buf.drop 1).take (e - 1)
        if s = [116] then .ok (.Boolean true, buf.drop (e + 2))
        else if s = [102] then .ok (.Boolean false, buf.drop (e + 2))
        else .error .invalidFrame
    | some 44 =>
      match extract_simple_resp buf [44] with
      | .error er => .error er
      | .ok e =>
        let tok := (buf.drop 1).take (e - 1)
        if f64Accepts tok then .ok (.Double tok, buf.drop (e + 2))
        else .error .parseFloatError
    | some 37 =>
      match parse_length buf [37] with
      | .error er => .error er
      | .ok (e, n) =>
        match calc_total_length (fuel + 1) buf e n 37 with
        | .error er => .error er
        | .ok total =>
          if buf.length < total then .error .frameNotComplete
          else
            match decodePairsF fuel n (buf.drop (e + 2)) [] with
            | .error er => .error er
            | .ok (entries, rest) => .ok (.Map entries, rest)
    | some 126 =>
      match parse_length buf [126] with
      | .error er => .error er
      | .ok (e, n) =>
        match calc_total_length (fuel + 1) buf e n 126 with
        | .error er => .error er
        | .ok total =>
          if buf.length < total then .error .frameNotComplete
          else
            match decodeSetF fuel n (buf.drop (e + 2)) [] with
            | .error er => .error er
            | .ok (elems, rest) => .ok (.Set elems, rest)
    | some _ => .error .invalidFrame
termination_by structural fuel _ => fuel

/-- The children loop of `RespArray::decode`. -/
def decodeListF : Nat → Nat → Bytes → Except RespErr (List RespFrame × Bytes)
  | 0, _, _ => .error .fuelExhausted
  | _ + 1, 0, buf => .ok ([], buf)
  | fuel + 1, n + 1, buf =>
    match decodeF fuel buf with
    | .error er => .error er
    | .ok (f, rest) =>
      match decodeListF fuel n rest with
      | .error er => .error er
      | .ok (fs, rest2) => .ok (f :: fs, rest2)
termination_by structural fuel _ _ => fuel

/-- The entry loop of `RespMap::decode`, inserting with `HashMap::insert`. -/
def decodePairsF : Nat → Nat → Bytes → List (RespFrame × RespFrame) →
    Except RespErr (List (RespFrame × RespFrame) × Bytes)
  | 0, _, _, _ => .error .fuelExhausted
  | _ + 1, 0, buf, acc => .ok (acc, buf)
  | fuel + 1, n + 1, buf, acc =>
    match decodeF fuel buf with
    | .error er => .error er
    | .ok (k, rest) =>
      match decodeF fuel rest with
      | .error er => .error er
      | .ok (v, rest2) => decodePairsF fuel n rest2 (mapInsert acc k v)
termination_by structural fuel _ _ _ => fuel

/-- The element loop of `RespSet::decode`, inserting with `HashSet::insert`. -/
def decodeSetF : Nat → Nat → Bytes → List RespFrame →
    Except RespErr (List RespFrame × Bytes)
  | 0, _, _, _ => .error .fuelExhausted
  | _ + 1, 0, buf, acc => .ok (acc, buf)
  | fuel + 1, n + 1, buf, acc =>
    match decodeF fuel buf with
    | .error er => .error er
    | .ok (f, rest) => decodeSetF fuel n rest (setInsert acc f)
termination_by structural fuel _ _ _ => fuel

end

/-- Decode one frame from the front of the buffer (`RespFrame::decode`),
with fuel that the recursion can never exhaust. -/
def RespFrame.decode (buf : Bytes) : Except RespErr (RespFrame × Bytes) :=
  decodeF (buf.length + 1) buf

/-- `RespFrame::expect_length` entry point. -/
def RespFrame.expectLength (buf : Bytes) : Except RespErr Nat :=
  expectLengthF (buf.length + 1) buf

def CRLF : Bytes := [13, 10]

/-- Decimal bytes of a `usize` (Rust `Display`). -/
def natBytes (n : Nat) : Bytes := ascii (toString n)

/-- Decimal bytes of an `i64` (Rust `Display`). -/
def intBytes (i : Int) : Bytes := ascii (toString i)

-- The `RespEncoder` impls of `resp/*.rs`.  `Double` emits its stored wire
-- token; the source's value-level nan/inf special cases are inside the
-- token abstraction (no settled claim depends on double formatting).
mutual

def encodeFrame : RespFrame → Bytes
  | .SimpleString s => [43] ++ s ++ CRLF
  | .SimpleError s => [45] ++ s ++ CRLF
  | .Integer i => [58] ++ intBytes i ++ CRLF
  | .BulkString b => [36] ++ natBytes b.length ++ CRLF ++ b ++ CRLF
  | .Array a => [42] ++ natBytes a.length ++ CRLF ++ encodeFrameList a
  | .Null => [95] ++ CRLF
  | .Boolean true => [35, 116] ++ CRLF
  | .Boolean false => [35, 102] ++ CRLF
  | .Double tok => [44] ++ tok ++ CRLF
  | .Map m => [37] ++ natBytes m.length ++ CRLF ++ encodeFramePairs m
  | .Set s => [126] ++ natBytes s.length ++ CRLF ++ encodeFrameList s

def encodeFrameList : List RespFrame → Bytes
  | [] => []
  | f :: t => encodeFrame f ++ encodeFrameList t

def encodeFramePairs : List (RespFrame × RespFrame) → Bytes
  | [] => []
  | (k, v) :: t => encodeFrame k ++ encodeFrame v ++ encodeFramePairs t

end

/-!
The store (`backend/mod.rs`).  The three `DashMap` collections are modelled
as association lists; `entry(..).or_default()` creates the outer binding on
first write, and removing the last inner entry leaves the (now empty) outer
binding in place, exactly as in the source.  The concurrent store is
modelled sequentially: each operation takes and returns the whole state.
-/

def assocGet {α : Type} (l : List (Bytes × α)) (k : Bytes) : Option α :=
  match l with
  | [] => none
  | (k2, v) :: t => if k2 = k then some v else assocGet t k

def assocSet {α : Type} (l : List (Bytes × α)) (k : Bytes) (v : α) : List (Bytes × α) :=
  match l with
  | [] => [(k, v)]
  | (k2, v2) :: t => if k2 = k then (k, v) :: t else (k2, v2) :: assocSet t k v

def assocRemove {α : Type} (l : List (Bytes × α)) (k : Bytes) : List (Bytes × α) :=
  match l with
  | [] => []
  | (k2, v2) :: t => if k2 = k then t else (k2, v2) :: assocRemove t k

/-- Remove one occurrence of a frame from a member list (`DashSet::remove`). -/
def frameRemove (l : List RespFrame) (x : RespFrame) : List RespFrame :=
  match l with
  | [] => []
  | y :: t => if y = x then t else y :: frameRemove t x

/-- `Backend` / `BackendInner` of `backend/mod.rs` (field `sets` is the
source's `set`, renamed because Lean methods share the namespace). -/
structure Backend where
  map : List (Bytes × RespFrame)
  hmap : List (Bytes × List (Bytes × RespFrame))
  sets : List (Bytes × List RespFrame)
deriving DecidableEq, Repr

def Backend.new : Backend := ⟨[], [], []⟩

def Backend.get (b : Backend) (k : Bytes) : Option RespFrame := assocGet b.map k

def Backend.set (b : Backend) (k : Bytes) (v : RespFrame) : Backend :=
  { b with map := assocSet b.map k v }

def Backend.del (b : Backend) (k : Bytes) : Backend × Bool :=
  ({ b with map := assocRemove b.map k }, (assocGet b.map k).isSome)

def Backend.hget (b : Backend) (k f : Bytes) : Option RespFrame :=
  (assocGet b.hmap k).bind (fun m => assocGet m f)

def Backend.hset (b : Backend) (k f : Bytes) (v : RespFrame) : Backend :=
  let inner := (assocGet b.hmap k).getD []
  { b with hmap := assocSet b.hmap k (assocSet inner f v) }

def Backend.hgetall (b : Backend) (k : Bytes) : Option (List (Bytes × RespFrame)) :=
  assocGet b.hmap k

def Backend.hdel (b : Backend) (k f : Bytes) : Backend × Bool :=
  match assocGet b.hmap k with
  | none => (b, false)
  | some m =>
    ({ b with hmap := assocSet b.hmap k (assocRemove m f) }, (assocGet m f).isSome)

def Backend.sadd (b : Backend) (k : Bytes) (x : RespFrame) : Backend × Bool :=
  let s := (assocGet b.sets k).getD []
  if s.contains x then ({ b with sets := assocSet b.sets k s }, false)
  else ({ b with sets := assocSet b.sets k (s ++ [x]) }, true)

def Backend.srem (b : Backend) (k : Bytes) (x : RespFrame) : Backend × Bool :=
  match assocGet b.sets k with
  | none => (b, false)
  | some s => ({ b with sets := assocSet b.sets k (frameRemove s x) }, s.contains x)

def Backend.sismember (b : Backend) (k : Bytes) (x : RespFrame) : Bool :=
  match assocGet b.sets k with
  | none => false
  | some s => s.contains x

def Backend.smembers (b : Backend) (k : Bytes) : Option (List RespFrame) :=
  assocGet b.sets k

/-!
The command layer (`cmd/mod.rs`, `cmd/map.rs`, `cmd/hmap.rs`, `cmd/set.rs`,
`cmd/error.rs`).
-/

/-- `CommandError` of `cmd/error.rs`. -/
inductive CommandError : Type where
  | invalidCommand (msg : Bytes)
  | invalidCommandArguments (msg : Bytes)
  | respErr (e : RespErr)
  | utf8Error
deriving DecidableEq, Repr

/-- Is a continuation byte (`10xxxxxx`)? -/
def utf8Cont (c : Nat) : Bool := 128 ≤ c && c ≤ 191

/-- UTF-8 validity of a byte list (the check behind `String::from_utf8`). -/
def validUtf8 : Bytes → Bool
  | [] => true
  | b :: t =>
    if b < 128 then validUtf8 t
    else if 194 ≤ b ∧ b ≤ 223 then
      match t with
      | c1 :: t2 => utf8Cont c1 && validUtf8 t2
      | _ => false
    else if b = 224 then
      match t with
      | c1 :: c2 :: t2 => (160 ≤ c1 && c1 ≤ 191) && utf8Cont c2 && validUtf8 t2
      | _ => false
    else if 225 ≤ b ∧ b ≤ 236 then
      match t with
      | c1 :: c2 :: t2 => utf8Cont c1 && utf8Cont c2 && validUtf8 t2
      | _ => false
    else if b = 237 then
      match t with
      | c1 :: c2 :: t2 => (128 ≤ c1 && c1 ≤ 159) && utf8Cont c2 && validUtf8 t2
      | _ => false
    else if 238 ≤ b ∧ b ≤ 239 then
      match t with
      | c1 :: c2 :: t2 => utf8Cont c1 && utf8Cont c2 && validUtf8 t2
      | _ => false
    else if b = 240 then
      match t with
      | c1 :: c2 :: c3 :: t2 =>
        (144 ≤ c1 && c1 ≤ 191) && utf8Cont c2 && utf8Cont c3 && validUtf8 t2
      | _ => false
    else if 241 ≤ b ∧ b ≤ 243 then
      match t with
      | c1 :: c2 :: c3 :: t2 => utf8Cont c1 && utf8Cont c2 && utf8Cont c3 && validUtf8 t2
      | _ => false
    else if b = 244 then
      match t with
      | c1 :: c2 :: c3 :: t2 =>
        (128 ≤ c1 && c1 ≤ 143) && utf8Cont c2 && utf8Cont c3 && validUtf8 t2
      | _ => false
    else false

/-- `String::from_utf8` (the `?`-lifted form used by the parsers): the byte
list itself on success, `Utf8Error` otherwise. -/
def fromUtf8 (b : Bytes) : Except CommandError Bytes :=
  if validUtf8 b then .ok b else .error .utf8Error

/-- `usize as i64` (two's-complement wrap). -/
def usizeAsI64 (n : Nat) : Int :=
  let m : Nat := n % 2 ^ 64
  if m < 2 ^ 63 then (m : Int) else (m : Int) - 2 ^ 64

/-- `i32 as i64` for the inferred-`i32` counters of the variadic commands
(value first wraps at 2^32 as an `i32`). -/
def i32AsI64 (n : Nat) : Int :=
  let m : Nat := n % 2 ^ 32
  if m < 2 ^ 31 then (m : Int) else (m : Int) - 2 ^ 32

/-- `to_ascii_lowercase` on bytes. -/
def asciiLower (b : Bytes) : Bytes :=
  b.map (fun c => if 65 ≤ c ∧ c ≤ 90 then c + 32 else c)

/-- The `RESP_OK` sentinel of `cmd/mod.rs`. -/
def RESP_OK : RespFrame := .SimpleString (ascii "OK")

structure GetCmd where
  key : Bytes
deriving DecidableEq, Repr

structure SetCmd where
  key : Bytes
  value : RespFrame
deriving DecidableEq, Repr

structure DelCmd where
  key : List Bytes
deriving DecidableEq, Repr

structure HSetCmd where
  key : Bytes
  values : List (Bytes × RespFrame)
deriving DecidableEq, Repr

structure HGetCmd where
  key : Bytes
  field : Bytes
deriving DecidableEq, Repr

structure HDelCmd where
  key : Bytes
  field : List Bytes
deriving DecidableEq, Repr

structure HGetAllCmd where
  key : Bytes
  sort : Bool
deriving DecidableEq, Repr

structure HKeysCmd where
  key : Bytes
deriving DecidableEq, Repr

/-- `KeyValue` of `cmd/mod.rs` (used by SISMEMBER). -/
structure KeyValue where
  key : Bytes
  value : RespFrame
deriving DecidableEq, Repr

/-- `KeyValues` of `cmd/mod.rs` (used by SADD and SREM). -/
structure KeyValues where
  key : Bytes
  values : List RespFrame
deriving DecidableEq, Repr

/-- Modelled from the spec: the ECHO command (its `cmd` source file is not in
the provided sources); `ECHO s` returns `s` as a BulkString. -/
structure EchoCmd where
  msg : Bytes
deriving DecidableEq, Repr

/-- Modelled from the spec: HMGET (source file not provided); per-field
results in request order, Null for missing fields. -/
structure HmgetCmd where
  key : Bytes
  fields : List Bytes
deriving DecidableEq, Repr

/-- Modelled from the spec: HMSET (source file not provided); same shape as
HSET but replies `+OK`. -/
structure HmsetCmd where
  key : Bytes
  values : List (Bytes × RespFrame)
deriving DecidableEq, Repr

/-- The `Command` enum of `cmd/mod.rs`. -/
inductive Command : Type where
  | set (c : SetCmd)
  | get (c : GetCmd)
  | del (c : DelCmd)
  | hset (c : HSetCmd)
  | hmset (c : HmsetCmd)
  | hget (c : HGetCmd)
  | hmget (c : HmgetCmd)
  | hdel (c : HDelCmd)
  | hgetall (c : HGetAllCmd)
  | hkeys (c : HKeysCmd)
  | echo (c : EchoCmd)
  | sadd (c : KeyValues)
  | sismember (c : KeyValue)
  | smembers (c : Bytes)
  | srem (c : KeyValues)
deriving DecidableEq, Repr

/-!  `CommandExecutor::execute` impls.  Each returns the store after the
command together with the reply frame. -/

def GetCmd.execute (c : GetCmd) (b : Backend) : Backend × RespFrame :=
  match b.get c.key with
  | some v => (b, v)
  | none => (b, .Null)

def SetCmd.execute (c : SetCmd) (b : Backend) : Backend × RespFrame :=
  (b.set c.key c.value, RESP_OK)

def DelCmd.execute (c : DelCmd) (b : Backend) : Backend × RespFrame :=
  let r := c.key.foldl
    (fun (acc : Backend × Nat) k =>
      let (b2, removed) := acc.1.del k
      (b2, if removed then acc.2 + 1 else acc.2))
    (b, 0)
  (r.1, .Integer (i32AsI64 r.2))

def HSetCmd.execute (c : HSetCmd) (b : Backend) : Backend × RespFrame :=
  let len := c.values.length
  let b2 := c.values.foldl (fun acc fv => acc.hset c.key fv.1 fv.2) b
  (b2, .Integer (usizeAsI64 len))

def HGetCmd.execute (c : HGetCmd) (b : Backend) : Backend × RespFrame :=
  match b.hget c.key c.field with
  | some v => (b, v)
  | none => (b, .Null)

def HDelCmd.execute (c : HDelCmd) (b : Backend) : Backend × RespFrame :=
  let r := c.field.foldl
    (fun (acc : Backend × Nat) f =>
      let (b2, removed) := acc.1.hdel c.key f
      (b2, if removed then acc.2 + 1 else acc.2))
    (b, 0)
  (r.1, .Integer (i32AsI64 r.2))

/-- Byte-wise lexicographic `<=` (Rust `String`/`Vec<u8>` ordering). -/
def byteLexLe : Bytes → Bytes → Bool
  | [], _ => true
  | _ :: _, [] => false
  | a :: as2, b :: bs => if a < b then true else if b < a then false else byteLexLe as2 bs

/-- Field ordering used by `data.sort_by(|a, b| a.0.cmp(&b.0))`. -/
def FieldLe (x y : Bytes × RespFrame) : Prop := byteLexLe x.1 y.1 = true

instance : DecidableRel FieldLe := fun x y => instDecidableEqBool (byteLexLe x.1 y.1) true

def HGetAllCmd.execute (c : HGetAllCmd) (b : Backend) : Backend × RespFrame :=
  match assocGet b.hmap c.key with
  | some m =>
    let data := if c.sort then List.insertionSort FieldLe m else m
    (b, .Array (List.flatten (data.map (fun kv => [.BulkString kv.1, kv.2]))))
  | none => (b, .Array [])

def HKeysCmd.execute (c : HKeysCmd) (b : Backend) : Backend × RespFrame :=
  match assocGet b.hmap c.key with
  | some m => (b, .Array (m.map (fun kv => .BulkString kv.1)))
  | none => (b, .Array [])

/-- Modelled from the spec: `ECHO s` returns `s` as a BulkString. -/
def EchoCmd.execute (c : EchoCmd) (b : Backend) : Backend × RespFrame :=
  (b, .BulkString c.msg)

/-- Modelled from the spec: HMGET returns an Array of per-field results,
Null for missing fields, preserving request order. -/
def HmgetCmd.execute (c : HmgetCmd) (b : Backend) : Backend × RespFrame :=
  (b, .Array (c.fields.map (fun f =>
    match b.hget c.key f with
    | some v => v
    | none => .Null)))

/-- Modelled from the spec: HMSET writes like HSET but always replies
`+OK`. -/
def HmsetCmd.execute (c : HmsetCmd) (b : Backend) : Backend × RespFrame :=
  (c.values.foldl (fun acc fv => acc.hset c.key fv.1 fv.2) b, RESP_OK)

def saddExecute (c : KeyValues) (b : Backend) : Backend × RespFrame :=
  let r := c.values.foldl
    (fun (acc : Backend × Nat) v =>
      let (b2, addedNew) := acc.1.sadd c.key v
      (b2, if addedNew then acc.2 + 1 else acc.2))
    (b, 0)
  (r.1, .Integer (i32AsI64 r.2))

def sremExecute (c : KeyValues) (b : Backend) : Backend × RespFrame :=
  let r := c.values.foldl
    (fun (acc : Backend × Nat) v =>
      let (b2, removed) := acc.1.srem c.key v
      (b2, if removed then acc.2 + 1 else acc.2))
    (b, 0)
  (r.1, .Integer (i32AsI64 r.2))

def sismemberExecute (c : KeyValue) (b : Backend) : Backend × RespFrame :=
  if b.sismember c.key c.value then (b, .Integer 1) else (b, .Integer 0)

def smembersExecute (k : Bytes) (b : Backend) : Backend × RespFrame :=
  match b.smembers k with
  | some s => (b, .Array s)
  | none => (b, .Array [])

def Command.execute : Command → Backend → Backend × RespFrame
  | .set c, b => c.execute b
  | .get c, b => c.execute b
  | .del c, b => c.execute b
  | .hset c, b => c.execute b
  | .hmset c, b => c.execute b
  | .hget c, b => c.execute b
  | .hmget c, b => c.execute b
  | .hdel c, b => c.execute b
  | .hgetall c, b => c.execute b
  | .hkeys c, b => c.execute b
  | .echo c, b => c.execute b
  | .sadd c, b => saddExecute c b
  | .sismember c, b => sismemberExecute c b
  | .smembers c, b => smembersExecute c b
  | .srem c, b => sremExecute c b

/-!  Command parsing (`TryFrom<RespArray>` impls). -/

def joinSpace : List Bytes → Bytes
  | [] => []
  | [x] => x
  | x :: t => x ++ [32] ++ joinSpace t

def validateCommandGo : List RespFrame → List Bytes → Except CommandError Unit
  | _, [] => .ok ()
  | .BulkString cmd :: vrest, name :: rest =>
    if asciiLower cmd ≠ name then
      .error (.invalidCommand (ascii "expected " ++ name ++ ascii ", got " ++ cmd))
    else validateCommandGo vrest rest
  | _ :: _, _ :: _ =>
    .error (.invalidCommand (ascii "Command must have a BulkString as the first argument"))
  | [], _ :: _ => .error (.respErr .panic)

/-- `validate_command` of `cmd/mod.rs`: enough elements, and each name
position holds a BulkString whose lowercase bytes match the name.  (The
final arm of the loop is unreachable under the length guard; it models the
out-of-bounds index panic.) -/
def validate_command (v : List RespFrame) (names : List Bytes) : Except CommandError Unit :=
  if v.length < names.length then
    .error (.invalidCommandArguments
      (joinSpace names ++ ascii " command must have at least one argument"))
  else validateCommandGo v names

/-- `extract_args(value, start)` of `cmd/mod.rs`. -/
def extract_args (v : List RespFrame) (start : Nat) : List RespFrame := v.drop start

/-- Modelled from the spec: `validate_args_fixed` (referenced by
`cmd/map.rs`/`cmd/hmap.rs` but defined in a source file that is not
provided): fixed arity — exactly `n` arguments after the command names. -/
def validate_args_fixed (v : List RespFrame) (names : List Bytes) (n : Nat) :
    Except CommandError Unit :=
  if v.length = names.length + n then .ok ()
  else .error (.invalidCommandArguments (ascii "wrong number of arguments"))

/-- Modelled from the spec: `validate_args` — variadic, at least one
argument after the command names. -/
def validate_args (v : List RespFrame) (names : List Bytes) : Except CommandError Unit :=
  if names.length + 1 ≤ v.length then .ok ()
  else .error (.invalidCommandArguments (ascii "wrong number of arguments"))

/-- Modelled from the spec: `validate_args_hmap` — a key plus at least one
field argument. -/
def validate_args_hmap (v : List RespFrame) (names : List Bytes) : Except CommandError Unit :=
  if names.length + 2 ≤ v.length then .ok ()
  else .error (.invalidCommandArguments (ascii "wrong number of arguments"))

/-- Modelled from the spec: `validate_args_hmap_pair` — a key plus at least
one field/value pair, an even number of arguments after the key. -/
def validate_args_hmap_pair (v : List RespFrame) (names : List Bytes) :
    Except CommandError Unit :=
  if names.length + 3 ≤ v.length ∧ (v.length - names.length - 1) % 2 = 0 then .ok ()
  else .error (.invalidCommandArguments (ascii "wrong number of arguments"))

def GetCmd.tryFrom (v : List RespFrame) : Except CommandError GetCmd :=
  match validate_command v [ascii "get"] with
  | .error e => .error e
  | .ok _ =>
    match validate_args_fixed v [ascii "get"] 1 with
    | .error e => .error e
    | .ok _ =>
      match (extract_args v 1).head? with
      | some (.BulkString key) =>
        match fromUtf8 key with
        | .error e => .error e
        | .ok kb => .ok ⟨kb⟩
      | _ => .error (.invalidCommandArguments (ascii "Invalid key"))

def SetCmd.tryFrom (v : List RespFrame) : Except CommandError SetCmd :=
  match validate_command v [ascii "set"] with
  | .error e => .error e
  | .ok _ =>
    match validate_args_fixed v [ascii "set"] 2 with
    | .error e => .error e
    | .ok _ =>
      match extract_args v 1 with
      | .BulkString key :: value :: _ =>
        match fromUtf8 key with
        | .error e => .error e
        | .ok kb => .ok ⟨kb, value⟩
      | _ => .error (.invalidCommandArguments (ascii "Invalid key or value"))

def delKeys : List RespFrame → Except CommandError (List Bytes)
  | [] => .ok []
  | .BulkString key :: t =>
    match fromUtf8 key with
    | .error e => .error e
    | .ok kb =>
      match delKeys t with
      | .error e => .error e
      | .ok rest => .ok (kb :: rest)
  | _ :: _ => .error (.invalidCommandArguments (ascii "Invalid key"))

def DelCmd.tryFrom (v : List RespFrame) : Except CommandError DelCmd :=
  match validate_command v [ascii "del"] with
  | .error e => .error e
  | .ok _ =>
    match validate_args v [ascii "del"] with
    | .error e => .error e
    | .ok _ =>
      match delKeys (extract_args v 1) with
      | .error e => .error e
      | .ok keys => .ok ⟨keys⟩

/-- The `while let (Some(f), Some(v))` pair loop of `HSet::try_from`
(`cmd/hmap.rs`); a trailing unpaired argument is silently dropped. -/
def hsetPairs : List RespFrame → Except CommandError (List (Bytes × RespFrame))
  | [] => .ok []
  | [_] => .ok []
  | .BulkString f :: v :: t =>
    match fromUtf8 f with
    | .error e => .error e
    | .ok fb =>
      match hsetPairs t with
      | .error e => .error e
      | .ok rest => .ok ((fb, v) :: rest)
  | _ :: _ :: _ => .error (.invalidCommandArguments (ascii "Invalid key, field or value"))

def HSetCmd.tryFrom (v : List RespFrame) : Except CommandError HSetCmd :=
  match validate_command v [ascii "hset"] with
  | .error e => .error e
  | .ok _ =>
    match validate_args_hmap_pair v [ascii "hset"] with
    | .error e => .error e
    | .ok _ =>
      match extract_args v 1 with
      | .BulkString key :: rest =>
        match fromUtf8 key with
        | .error e => .error e
        | .ok kb =>
          match hsetPairs rest with
          | .error e => .error e
          | .ok pairs => .ok ⟨kb, pairs⟩
      | _ => .error (.invalidCommandArguments (ascii "Invalid key"))

def HGetCmd.tryFrom (v : List RespFrame) : Except CommandError HGetCmd :=
  match validate_command v [ascii "hget"] with
  | .error e => .error e
  | .ok _ =>
    match validate_args_fixed v [ascii "hget"] 2 with
    | .error e => .error e
    | .ok _ =>
      match extract_args v 1 with
      | .BulkString key :: .BulkString f :: _ =>
        match fromUtf8 key with
        | .error e => .error e
        | .ok kb =>
          match fromUtf8 f with
          | .error e => .error e
          | .ok fb => .ok ⟨kb, fb⟩
      | _ => .error (.invalidCommandArguments (ascii "Invalid key or field"))

def hdelFields : List RespFrame → Except CommandError (List Bytes)
  | [] => .ok []
  | .BulkString f :: t =>
    match fromUtf8 f with
    | .error e => .error e
    | .ok fb =>
      match hdelFields t with
      | .error e => .error e
      | .ok rest => .ok (fb :: rest)
  | _ :: _ => .error (.invalidCommandArguments (ascii "Invalid field"))

def HDelCmd.tryFrom (v : List RespFrame) : Except CommandError HDelCmd :=
  match validate_command v [ascii "hdel"] with
  | .error e => .error e
  | .ok _ =>
    match validate_args_hmap v [ascii "hdel"] with
    | .error e => .error e
    | .ok _ =>
      match extract_args v 1 with
      | .BulkString key :: rest =>
        match fromUtf8 key with
        | .error e => .error e
        | .ok kb =>
          match hdelFields rest with
          | .error e => .error e
          | .ok fs => .ok ⟨kb, fs⟩
      | _ => .error (.invalidCommandArguments (ascii "Invalid key"))

def HGetAllCmd.tryFrom (v : List RespFrame) : Except CommandError HGetAllCmd :=
  match validate_command v [ascii "hgetall"] with
  | .error e => .error e
  | .ok _ =>
    match validate_args_fixed v [ascii "hgetall"] 1 with
    | .error e => .error e
    | .ok _ =>
      match (extract_args v 1).head? with
      | some (.BulkString key) =>
        match fromUtf8 key with
        | .error e => .error e
        | .ok kb => .ok ⟨kb, false⟩
      | _ => .error (.invalidCommandArguments (ascii "Invalid key"))

def HKeysCmd.tryFrom (v : List RespFrame) : Except CommandError HKeysCmd :=
  match validate_command v [ascii "hkeys"] with
  | .error e => .error e
  | .ok _ =>
    match validate_args_fixed v [ascii "hkeys"] 1 with
    | .error e => .error e
    | .ok _ =>
      match (extract_args v 1).head? with
      | some (.BulkString key) =>
        match fromUtf8 key with
        | .error e => .error e
        | .ok kb => .ok ⟨kb⟩
      | _ => .error (.invalidCommandArguments (ascii "Invalid key"))

/-- Modelled from the spec: the ECHO parser (source file not provided);
`ECHO s` takes exactly one BulkString argument. -/
def EchoCmd.tryFrom (v : List RespFrame) : Except CommandError EchoCmd :=
  match validate_command v [ascii "echo"] with
  | .error e => .error e
  | .ok _ =>
    match validate_args_fixed v [ascii "echo"] 1 with
    | .error e => .error e
    | .ok _ =>
      match (extract_args v 1).head? with
      | some (.BulkString s) => .ok ⟨s⟩
      | _ => .error (.invalidCommandArguments (ascii "Invalid argument"))

/-- Modelled from the spec: the HMGET parser (source file not provided); a
key plus at least one field, all BulkStrings. -/
def HmgetCmd.tryFrom (v : List RespFrame) : Except CommandError HmgetCmd :=
  match validate_command v [ascii "hmget"] with
  | .error e => .error e
  | .ok _ =>
    match validate_args_hmap v [ascii "hmget"] with
    | .error e => .error e
    | .ok _ =>
      match extract_args v 1 with
      | .BulkString key :: rest =>
        match fromUtf8 key with
        | .error e => .error e
        | .ok kb =>
          match hdelFields rest with
          | .error e => .error e
          | .ok fs => .ok ⟨kb, fs⟩
      | _ => .error (.invalidCommandArguments (ascii "Invalid key"))

/-- Modelled from the spec: the HMSET parser (source file not provided);
same argument shape as HSET. -/
def HmsetCmd.tryFrom (v : List RespFrame) : Except CommandError HmsetCmd :=
  match validate_command v [ascii "hmset"] with
  | .error e => .error e
  | .ok _ =>
    match validate_args_hmap_pair v [ascii "hmset"] with
    | .error e => .error e
    | .ok _ =>
      match extract_args v 1 with
      | .BulkString key :: rest =>
        match fromUtf8 key with
        | .error e => .error e
        | .ok kb =>
          match hsetPairs rest with
          | .error e => .error e
          | .ok pairs => .ok ⟨kb, pairs⟩
      | _ => .error (.invalidCommandArguments (ascii "Invalid key"))

/-- `TryFrom<RespArray> for String` of `cmd/mod.rs` (used by SMEMBERS). -/
def stringTryFrom (v : List RespFrame) : Except CommandError Bytes :=
  if v.length ≠ 1 then
    .error (.invalidCommandArguments (ascii "Command must have a one argument"))
  else
    match v.head? with
    | some (.BulkString s) => fromUtf8 s
    | _ => .error (.invalidCommandArguments (ascii "Argument must be of the BulkString type"))

/-- `TryFrom<RespArray> for KeyValue` of `cmd/mod.rs` (used by SISMEMBER). -/
def keyValueTryFrom (v : List RespFrame) : Except CommandError KeyValue :=
  if v.length ≠ 2 then
    .error (.invalidCommandArguments (ascii "Command must have a two arguments"))
  else
    match v with
    | .BulkString key :: value :: _ =>
      match fromUtf8 key with
      | .error e => .error e
      | .ok kb => .ok ⟨kb, value⟩
    | _ => .error (.invalidCommandArguments (ascii "Invalid key or value"))

/-- `TryFrom<RespArray> for KeyValues` of `cmd/mod.rs` (used by SADD and
SREM). -/
def keyValuesTryFrom (v : List RespFrame) : Except CommandError KeyValues :=
  if v.length < 2 then
    .error (.invalidCommandArguments (ascii "Command must have a two arguments"))
  else
    match v with
    | .BulkString key :: rest =>
      match fromUtf8 key with
      | .error e => .error e
      | .ok kb => .ok ⟨kb, rest⟩
    | _ => .error (.invalidCommandArguments (ascii "Invalid key or value"))

def saddTryFrom (v : List RespFrame) : Except CommandError KeyValues :=
  match validate_command v [ascii "sadd"] with
  | .error e => .error e
  | .ok _ => keyValuesTryFrom (extract_args v 1)

def sremTryFrom (v : List RespFrame) : Except CommandError KeyValues :=
  match validate_command v [ascii "srem"] with
  | .error e => .error e
  | .ok _ => keyValuesTryFrom (extract_args v 1)

def sismemberTryFrom (v : List RespFrame) : Except CommandError KeyValue :=
  match validate_command v [ascii "sismember"] with
  | .error e => .error e
  | .ok _ => keyValueTryFrom (extract_args v 1)

def smembersTryFrom (v : List RespFrame) : Except CommandError Bytes :=
  match validate_command v [ascii "smembers"] with
  | .error e => .error e
  | .ok _ => stringTryFrom (extract_args v 1)

/-- `TryFrom<RespArray> for Command` of `cmd/mod.rs`: dispatch on the
lowercased first BulkString.  The error message for an unknown name uses
`String::from_utf8_lossy`, which on byte lists is the identity for valid
UTF-8 (all inputs of interest are ASCII). -/
def Command.tryFromArray (v : List RespFrame) : Except CommandError Command :=
  match v.head? with
  | some (.BulkString cmd) =>
    let lc := asciiLower cmd
    if lc = ascii "get" then (GetCmd.tryFrom v).map .get
    else if lc = ascii "set" then (SetCmd.tryFrom v).map .set
    else if lc = ascii "del" then (DelCmd.tryFrom v).map .del
    else if lc = ascii "hget" then (HGetCmd.tryFrom v).map .hget
    else if lc = ascii "hset" then (HSetCmd.tryFrom v).map .hset
    else if lc = ascii "hmget" then (HmgetCmd.tryFrom v).map .hmget
    else if lc = ascii "hmset" then (HmsetCmd.tryFrom v).map .hmset
    else if lc = ascii "hdel" then (HDelCmd.tryFrom v).map .hdel
    else if lc = ascii "hgetall" then (HGetAllCmd.tryFrom v).map .hgetall
    else if lc = ascii "hkeys" then (HKeysCmd.tryFrom v).map .hkeys
    else if lc = ascii "echo" then (EchoCmd.tryFrom v).map .echo
    else if lc = ascii "sadd" then (saddTryFrom v).map .sadd
    else if lc = ascii "sismember" then (sismemberTryFrom v).map .sismember
    else if lc = ascii "smembers" then (smembersTryFrom v).map .smembers
    else if lc = ascii "srem" then (sremTryFrom v).map .srem
    else .error (.invalidCommand (ascii "unknown command " ++ [39] ++ cmd ++ [39]))
  | _ => .error (.invalidCommand (ascii "Command must have a BulkString as the first argument"))

/-- `TryFrom<RespFrame> for Command` of `cmd/mod.rs`. -/
def Command.tryFrom : RespFrame → Except CommandError Command
  | .Array a => Command.tryFromArray a
  | _ => .error (.invalidCommand (ascii "Command must be an Array"))

/-- `From<CommandError> for RespFrame` of `cmd/error.rs`.  (Dead code on the
connection path: `network.rs` never applies it.) -/
def CommandError.toRespFrame : CommandError → RespFrame
  | .invalidCommand msg => .SimpleError msg
  | .invalidCommandArguments _ =>
    .SimpleError (ascii "ERR wrong number of arguments for command")
  | .respErr _ => .SimpleError (ascii "ERR internal error")
  | .utf8Error => .SimpleError (ascii "ERR internal error")

/-!  The per-connection loop (`network.rs`). -/

/-- `request_handler` of `network.rs`: `Command::try_from(frame)?` then
execute.  A parse error propagates as `Err` (the `?` operator) — it is not
converted into a reply frame. -/
def request_handler (b : Backend) (f : RespFrame) : Except CommandError (Backend × RespFrame) :=
  match Command.tryFrom f with
  | .error e => .error e
  | .ok cmd => .ok (cmd.execute b)

/-- The frame-processing loop of `stream_handler` (`network.rs`), applied to
the list of frames decoded on one connection: each frame is handled and its
reply sent in order; EOF ends cleanly (`false`); an `Err` from
`request_handler` aborts the loop — the connection closes with an error
(`true`) and no reply is sent for the failing frame or any later one. -/
def stream_handler : Backend → List RespFrame → List RespFrame × Bool
  | _, [] => ([], false)
  | b, f :: fs =>
    match request_handler b f with
    | .ok (b2, r) =>
      let (rs, closed) := stream_handler b2 fs
      (r :: rs, closed)
    | .error _ => ([], true)

instance {e a : Type} [DecidableEq e] [DecidableEq a] : DecidableEq (Except e a)
  | .ok x, .ok y => decidable_of_iff (x = y) (by simp)
  | .error x, .error y => decidable_of_iff (x = y) (by simp)
  | .ok _, .error _ => isFalse (fun h => Except.noConfusion h)
  | .error _, .ok _ => isFalse (fun h => Except.noConfusion h)

/-!  Helper lemmas about the store model. -/

theorem assocGet_assocSet {α : Type} (l : List (Bytes × α)) (k k2 : Bytes) (v : α) :
    assocGet (assocSet l k v) k2 = if k = k2 then some v else assocGet l k2 := by
  induction l with
  | nil => simp [assocGet, assocSet]
  | cons hd t ih =>
    obtain ⟨hk, hv⟩ := hd
    by_cases h1 : hk = k
    · subst h1
      by_cases h2 : hk = k2 <;> simp [assocGet, assocSet, h2]
    · by_cases h2 : hk = k2
      · subst h2
        have : ¬ k = hk := fun hh => h1 hh.symm
        simp [assocGet, assocSet, h1, this]
      · simp [assocGet, assocSet, h1, h2, ih]

theorem hget_hset (b : Backend) (k f f2 : Bytes) (v : RespFrame) :
    (b.hset k f v).hget k f2 = if f = f2 then some v else b.hget k f2 := by
  unfold Backend.hset Backend.hget
  simp only [assocGet_assocSet, if_pos rfl, Option.bind]
  cases hm : assocGet b.hmap k with
  | none => simp [hm, assocGet_assocSet, assocGet]
  | some m => simp [hm, assocGet_assocSet]

/-- Last-occurrence lookup in a field/value pair list (later pairs win);
used to state what a sequence of `hset` writes leaves behind. -/
def lastValue (values : List (Bytes × RespFrame)) (f : Bytes) : Option RespFrame :=
  match values with
  | [] => none
  | (f2, v) :: rest =>
    match lastValue rest f with
    | some v2 => some v2
    | none => if f2 = f then some v else none

theorem hget_hset_fold (values : List (Bytes × RespFrame)) (b : Backend) (key f : Bytes) :
    (values.foldl (fun acc fv => acc.hset key fv.1 fv.2) b).hget key f =
      match lastValue values f with
      | some v => some v
      | none => b.hget key f := by
  induction values generalizing b with
  | nil => simp [lastValue]
  | cons hd t ih =>
    obtain ⟨f2, v⟩ := hd
    simp only [List.foldl_cons, ih, lastValue]
    cases hlast : lastValue t f with
    | some v2 => simp
    | none => by_cases hf : f2 = f <;> simp [hget_hset, hf]

theorem usizeAsI64_small (n : Nat) (h : n < 2 ^ 63) : usizeAsI64 n = (n : Int) := by
  unfold usizeAsI64
  simp only []
  split <;> omega

theorem i32AsI64_small (n : Nat) (h : n < 2 ^ 31) : i32AsI64 n = (n : Int) := by
  unfold i32AsI64
  simp only []
  split <;> omega

/-!  Helper lemmas for the byte-wise lexicographic order used by the sorted
HGETALL path. -/

theorem byteLexLe_total (a b : Bytes) : byteLexLe a b = true ∨ byteLexLe b a = true := by
  induction a generalizing b with
  | nil => left; simp [byteLexLe]
  | cons x xs ih =>
    cases b with
    | nil => right; simp [byteLexLe]
    | cons y ys =>
      by_cases h1 : x < y
      · left; simp [byteLexLe, h1]
      · by_cases h2 : y < x
        · right; simp [byteLexLe, h2]
        · have hxy : ¬ y < x := h2
          cases ih ys with
          | inl hl => left; simp [byteLexLe, h1, h2, hl]
          | inr hr => right; simp [byteLexLe, h1, h2, hxy, hr]

theorem byteLexLe_trans (a b c : Bytes) (h1 : byteLexLe a b = true)
    (h2 : byteLexLe b c = true) : byteLexLe a c = true := by
  induction a generalizing b c with
  | nil => simp [byteLexLe]
  | cons x xs ih =>
    cases b with
    | nil => simp [byteLexLe] at h1
    | cons y ys =>
      cases c with
      | nil => simp [byteLexLe] at h2
      | cons z zs =>
        simp only [byteLexLe] at h1 h2 ⊢
        by_cases hxy : x < y
        · have hyz : y < z ∨ (¬ y < z ∧ ¬ z < y) := by
            by_cases hzy : z < y
            · simp [if_neg (by omega : ¬ y < z), if_pos hzy] at h2
            · by_cases hyz2 : y < z
              · left; exact hyz2
              · right; exact ⟨hyz2, hzy⟩
          have hxz : x < z := by omega
          simp [hxz]
        · by_cases hyx : y < x
          · simp [hxy, hyx] at h1
          · have hxy2 : x = y := by omega
            subst hxy2
            by_cases hxz : x < z
            · simp [hxz]
            · by_cases hzx : z < x
              · simp [hxz, hzx] at h2
              · simp only [if_neg hxy, if_neg hyx] at h1
                simp only [if_neg hxz, if_neg hzx] at h2 ⊢
                exact ih ys zs h1 h2

instance : IsTotal (Bytes × RespFrame) FieldLe :=
  ⟨fun x y => byteLexLe_total x.1 y.1⟩

instance : IsTrans (Bytes × RespFrame) FieldLe :=
  ⟨fun x y z h1 h2 => byteLexLe_trans x.1 y.1 z.1 h1 h2⟩

/-!  Helper lemmas for the decoder. -/

theorem findCrlfGo_some (buf : Bytes) (nth : Nat) :
    ∀ (fuel i count e : Nat), findCrlfGo buf nth fuel i count = some e →
      i ≤ e ∧ e + 1 < buf.length ∧ buf.getD e 0 = 13 := by
  intro fuel
  induction fuel with
  | zero => intro i count e h; simp [findCrlfGo] at h
  | succ n ih =>
    intro i count e h
    simp only [findCrlfGo] at h
    by_cases hlen : i + 1 < buf.length
    · rw [if_pos hlen] at h
      by_cases hcr : buf.getD i 0 = 13 ∧ buf.getD (i + 1) 0 = 10
      · rw [if_pos hcr] at h
        by_cases hcount : count + 1 = nth
        · rw [if_pos hcount] at h
          obtain rfl : i = e := by exact Option.some.inj h
          exact ⟨le_refl _, hlen, hcr.1⟩
        · rw [if_neg hcount] at h
          obtain ⟨h1, h2, h3⟩ := ih (i + 1) (count + 1) e h
          exact ⟨by omega, h2, h3⟩
      · rw [if_neg hcr] at h
        obtain ⟨h1, h2, h3⟩ := ih (i + 1) count e h
        exact ⟨by omega, h2, h3⟩
    · rw [if_neg hlen] at h
      exact absurd h (by simp)

theorem find_crlf_some (buf : Bytes) (e : Nat) (h : find_crlf buf 1 = some e) :
    1 ≤ e ∧ e + 1 < buf.length ∧ buf.getD e 0 = 13 :=
  findCrlfGo_some buf 1 buf.length 1 0 e h

/-!  The claim theorems. -/

/-- Claim C1: decoding `$-1\r\n` succeeds and yields an empty BulkString
frame, decoding `*-1\r\n` succeeds and yields an empty Array frame, and
neither result is the Null frame.  (This is the behavior of the live
per-type decoders `bulk_string.rs` and `array.rs`; the stale
`resp/decode.rs` copy of the same impls — which no longer type-checks
against the `RespDecoder` trait of `resp/mod.rs` — returned `RespNull`
instead.) -/
theorem C1_legacy_null_shapes :
    RespFrame.decode (ascii "$-1\r\n") = .ok (.BulkString [], []) ∧
    RespFrame.decode (ascii "*-1\r\n") = .ok (.Array [], []) ∧
    RespFrame.BulkString [] ≠ .Null ∧ RespFrame.Array [] ≠ .Null :=
  ⟨by decide, by decide, by decide, by decide⟩

/-- Claim C2 (failing input): feeding the decoder the first 10 bytes
`*3\r\n$3\r\nSE` of the valid frame `*3\r\n$3\r\nSET\r\n$4\r\nname\r\n$7\r\nvictory\r\n`
does not produce the FrameNotComplete signal: `calc_total_length` slices
`data[9..]` on a 6-byte slice, an out-of-range panic (modelled `.panic`).
A prefix that ends exactly on a child boundary (`*2\r\n+a\r\n`) instead
hits the `expect_length` dispatch on an empty buffer and returns
InvalidFrame, a protocol error.  The full frame decodes fine. -/
theorem C2_partial_feed_crash :
    RespFrame.decode (ascii "*3\r\n$3\r\nSE") = .error .panic ∧
    ascii "*3\r\n$3\r\nSE" =
      (ascii "*3\r\n$3\r\nSET\r\n$4\r\nname\r\n$7\r\nvictory\r\n").take 10 ∧
    RespFrame.decode (ascii "*3\r\n$3\r\nSET\r\n$4\r\nname\r\n$7\r\nvictory\r\n") =
      .ok (.Array [.BulkString (ascii "SET"), .BulkString (ascii "name"),
        .BulkString (ascii "victory")], []) ∧
    RespFrame.decode (ascii "*2\r\n+a\r\n") = .error .invalidFrame :=
  ⟨by decide, by decide, by decide, by decide⟩

/-- Claim C3 (counterexample): for the request `["FOO"]` the claim predicts
the reply `SimpleError "ERR unknown command 'FOO'"` with the connection kept
open; in fact `request_handler` propagates the parse error with `?`, so the
connection produces no reply at all and closes — and the parse error text
itself is `unknown command 'FOO'`, without the `ERR ` prefix. -/
theorem C3_counterexample :
    stream_handler Backend.new [.Array [.BulkString (ascii "FOO")]] = ([], true) ∧
    stream_handler Backend.new [.Array [.BulkString (ascii "FOO")]] ≠
      ([.SimpleError (ascii "ERR unknown command " ++ [39] ++ ascii "FOO" ++ [39])], false) ∧
    Command.tryFrom (.Array [.BulkString (ascii "FOO")]) =
      .error (.invalidCommand (ascii "unknown command " ++ [39] ++ ascii "FOO" ++ [39])) :=
  ⟨by decide, by decide, by decide⟩

/-- The lowercased names accepted by the `TryFrom<RespArray> for Command`
dispatch of `cmd/mod.rs`. -/
def supportedCommandNames : List Bytes :=
  [ascii "get", ascii "set", ascii "del", ascii "hget", ascii "hset", ascii "hmget",
   ascii "hmset", ascii "hdel", ascii "hgetall", ascii "hkeys", ascii "echo",
   ascii "sadd", ascii "sismember", ascii "smembers", ascii "srem"]

/-- Claim C3 (amended): for every top-level Array frame whose first element
is a BulkString naming a command not in the supported set, command parsing
fails with `InvalidCommand` carrying the text `unknown command '<name>'`
(no `ERR ` prefix), the server sends no reply, and the connection closes —
any pipelined requests after it are dropped. -/
theorem C3_unknown_command_closes (cmd : Bytes) (args tail : List RespFrame) (b : Backend)
    (h : asciiLower cmd ∉ supportedCommandNames) :
    Command.tryFromArray (.BulkString cmd :: args) =
      .error (.invalidCommand (ascii "unknown command " ++ [39] ++ cmd ++ [39])) ∧
    stream_handler b (.Array (.BulkString cmd :: args) :: tail) = ([], true) := by
  simp only [supportedCommandNames, List.mem_cons, List.not_mem_nil, or_false,
    not_or] at h
  obtain ⟨h1, h2, h3, h4, h5, h6, h7, h8, h9, h10, h11, h12, h13, h14, h15⟩ := h
  have hparse : Command.tryFromArray (.BulkString cmd :: args) =
      .error (.invalidCommand (ascii "unknown command " ++ [39] ++ cmd ++ [39])) := by
    simp [Command.tryFromArray, h1, h2, h3, h4, h5, h6, h7, h8, h9, h10, h11, h12,
      h13, h14, h15]
  refine ⟨hparse, ?_⟩
  simp [stream_handler, request_handler, Command.tryFrom, hparse]

/-- Witness for C3 (amended), at the unknown command name `FOO`. -/
theorem C3_unknown_command_closes_witness :
    asciiLower (ascii "FOO") ∉ supportedCommandNames ∧
    stream_handler Backend.new [.Array [.BulkString (ascii "FOO")]] = ([], true) :=
  ⟨by decide,
    (C3_unknown_command_closes (ascii "FOO") [] [] Backend.new (by decide)).2⟩

/-- Claim C5: `HSET k f1 v1 .. fn vn` replies Integer n whatever the prior
contents of the store, and afterwards `HGET k f` returns the value of the
last supplied pair for `f`, for every field among the pairs (the
`n < 2^63` bound keeps the `usize as i64` cast of the source exact). -/
theorem C5_hset_count_hget (key : Bytes) (values : List (Bytes × RespFrame)) (b : Backend)
    (h : values.length < 2 ^ 63) :
    (HSetCmd.execute ⟨key, values⟩ b).2 = .Integer values.length ∧
    ∀ f v, lastValue values f = some v →
      ((HSetCmd.execute ⟨key, values⟩ b).1).hget key f = some v := by
  constructor
  · simp [HSetCmd.execute, usizeAsI64_small _ h]
  · intro f v hl
    simp [HSetCmd.execute, hget_hset_fold, hl]

/-- Witness for C5: two pairs with a duplicate field; the reply is Integer 2
and HGET sees the second value. -/
theorem C5_hset_count_hget_witness :
    ([(ascii "f", RespFrame.Integer 1), (ascii "f", RespFrame.Integer 2)].length < 2 ^ 63) ∧
    (HSetCmd.execute ⟨ascii "k",
      [(ascii "f", RespFrame.Integer 1), (ascii "f", RespFrame.Integer 2)]⟩ Backend.new).2 =
      .Integer 2 ∧
    ((HSetCmd.execute ⟨ascii "k",
      [(ascii "f", RespFrame.Integer 1), (ascii "f", RespFrame.Integer 2)]⟩ Backend.new).1).hget
      (ascii "k") (ascii "f") = some (.Integer 2) :=
  have t := C5_hset_count_hget (ascii "k")
    [(ascii "f", RespFrame.Integer 1), (ascii "f", RespFrame.Integer 2)] Backend.new (by decide)
  ⟨by decide, t.1, t.2 (ascii "f") (.Integer 2) (by decide)⟩

/-- Claim C7: `SET k v` always replies the `+OK` SimpleString; `GET k` after
`SET k v` replies `v`; after `SET k v1; SET k v2` it replies `v2`; and `GET`
of a key absent from the string map replies the Null frame. -/
theorem C7_set_get (b : Backend) (k : Bytes) (v v1 v2 : RespFrame) :
    (SetCmd.execute ⟨k, v⟩ b).2 = RESP_OK ∧
    encodeFrame RESP_OK = ascii "+OK\r\n" ∧
    (GetCmd.execute ⟨k⟩ (SetCmd.execute ⟨k, v⟩ b).1).2 = v ∧
    (GetCmd.execute ⟨k⟩ (SetCmd.execute ⟨k, v2⟩ (SetCmd.execute ⟨k, v1⟩ b).1).1).2 = v2 ∧
    (b.get k = none → (GetCmd.execute ⟨k⟩ b).2 = .Null) := by
  refine ⟨rfl, by decide, ?_, ?_, ?_⟩
  · simp [GetCmd.execute, SetCmd.execute, Backend.get, Backend.set, assocGet_assocSet]
  · simp [GetCmd.execute, SetCmd.execute, Backend.get, Backend.set, assocGet_assocSet]
  · intro h
    simp [GetCmd.execute, h]

/-- Witness for C7 at a fresh store and the key `k`. -/
theorem C7_set_get_witness :
    Backend.new.get (ascii "k") = none ∧
    (GetCmd.execute ⟨ascii "k"⟩ Backend.new).2 = .Null ∧
    (GetCmd.execute ⟨ascii "k"⟩
      (SetCmd.execute ⟨ascii "k", RespFrame.Integer 1⟩ Backend.new).1).2 = .Integer 1 :=
  have t := C7_set_get Backend.new (ascii "k") (.Integer 1) (.Integer 2) (.Integer 3)
  ⟨by decide, t.2.2.2.2 (by decide), t.2.2.1⟩

/-- Claim C8: removing a field with `hdel` (or a member with `srem`) leaves
the outer key binding in place: `hgetall`/`smembers` still answer `some`,
and when the removed entry was the last one they answer the existing empty
container `some []`, never `none`. -/
theorem C8_remove_last_keeps_binding (b : Backend) (k f : Bytes)
    (m : List (Bytes × RespFrame)) (x : RespFrame) (s : List RespFrame)
    (hm : assocGet b.hmap k = some m) (hs : assocGet b.sets k = some s) :
    ((b.hdel k f).1).hgetall k = some (assocRemove m f) ∧
    (∀ v, m = [(f, v)] → ((b.hdel k f).1).hgetall k = some []) ∧
    ((b.srem k x).1).smembers k = some (frameRemove s x) ∧
    (s = [x] → ((b.srem k x).1).smembers k = some []) := by
  have h1 : ((b.hdel k f).1).hgetall k = some (assocRemove m f) := by
    simp [Backend.hdel, hm, Backend.hgetall, assocGet_assocSet]
  have h2 : ((b.srem k x).1).smembers k = some (frameRemove s x) := by
    simp [Backend.srem, hs, Backend.smembers, assocGet_assocSet]
  refine ⟨h1, ?_, h2, ?_⟩
  · intro v hmv
    subst hmv
    simpa [assocRemove] using h1
  · intro hsx
    subst hsx
    simpa [frameRemove] using h2

/-- A store holding one single-field hash and one single-member set under
the key `k` (used by the C8 witness). -/
def c8Backend : Backend :=
  ⟨[], [(ascii "k", [(ascii "f", RespFrame.Integer 1)])], [(ascii "k", [RespFrame.Integer 7])]⟩

/-- Witness for C8: deleting the last field / removing the last member
leaves `some []` (present and empty), not `none`. -/
theorem C8_remove_last_keeps_binding_witness :
    assocGet c8Backend.hmap (ascii "k") = some [(ascii "f", RespFrame.Integer 1)] ∧
    assocGet c8Backend.sets (ascii "k") = some [RespFrame.Integer 7] ∧
    ((c8Backend.hdel (ascii "k") (ascii "f")).1).hgetall (ascii "k") = some [] ∧
    ((c8Backend.srem (ascii "k") (.Integer 7)).1).smembers (ascii "k") = some [] :=
  have t := C8_remove_last_keeps_binding c8Backend (ascii "k") (ascii "f")
    [(ascii "f", RespFrame.Integer 1)] (.Integer 7) [RespFrame.Integer 7]
    (by decide) (by decide)
  ⟨by decide, by decide, t.2.1 (.Integer 1) rfl, t.2.2.2 rfl⟩

/-- Claim C10: executing HGETALL on a key with no hash stored under it
replies the empty Array frame — which encodes to `*0\r\n` — and not the
Null frame (the source's `None => RespArray::new([])` arm). -/
theorem C10_hgetall_absent (b : Backend) (k : Bytes) (srt : Bool)
    (h : assocGet b.hmap k = none) :
    HGetAllCmd.execute ⟨k, srt⟩ b = (b, .Array []) ∧
    RespFrame.Array [] ≠ .Null ∧
    encodeFrame (.Array []) = ascii "*0\r\n" := by
  refine ⟨by simp [HGetAllCmd.execute, h], by decide, by decide⟩

/-- Witness for C10 at a fresh store and the key `missing`. -/
theorem C10_hgetall_absent_witness :
    assocGet Backend.new.hmap (ascii "missing") = none ∧
    HGetAllCmd.execute ⟨ascii "missing", false⟩ Backend.new = (Backend.new, .Array []) :=
  ⟨by decide, (C10_hgetall_absent Backend.new (ascii "missing") false (by decide)).1⟩

/-- Claim C6: HGetAll with the sort flag on an existing hash replies an
Array that interleaves field then value over some permutation of the hash
entries whose field sequence is ascending in byte-wise lexicographic
order. -/
theorem C6_hgetall_sorted (b : Backend) (k : Bytes) (m : List (Bytes × RespFrame))
    (h : assocGet b.hmap k = some m) :
    ∃ es : List (Bytes × RespFrame),
      es.Perm m ∧
      List.Sorted (fun x y : Bytes => byteLexLe x y = true) (es.map Prod.fst) ∧
      HGetAllCmd.execute ⟨k, true⟩ b =
        (b, .Array (List.flatten (es.map (fun kv => [.BulkString kv.1, kv.2])))) := by
  refine ⟨List.insertionSort FieldLe m, List.perm_insertionSort FieldLe m, ?_, ?_⟩
  · exact List.Pairwise.map Prod.fst (fun a c hac => hac)
      (List.sorted_insertionSort FieldLe m)
  · simp [HGetAllCmd.execute, h]

/-- A store holding the hash `k -> [b: 1, a: 2]` in reversed field order
(used by the C6 witness). -/
def c6Backend : Backend :=
  ⟨[], [(ascii "k", [(ascii "b", RespFrame.Integer 1), (ascii "a", RespFrame.Integer 2)])], []⟩

/-- Witness for C6: on the two-field hash stored in descending field order,
the sorted HGetAll emits `a` before `b`, each immediately followed by its
value. -/
theorem C6_hgetall_sorted_witness :
    assocGet c6Backend.hmap (ascii "k") =
      some [(ascii "b", RespFrame.Integer 1), (ascii "a", RespFrame.Integer 2)] ∧
    (∃ es : List (Bytes × RespFrame),
      es.Perm [(ascii "b", RespFrame.Integer 1), (ascii "a", RespFrame.Integer 2)] ∧
      List.Sorted (fun x y : Bytes => byteLexLe x y = true) (es.map Prod.fst) ∧
      HGetAllCmd.execute ⟨ascii "k", true⟩ c6Backend =
        (c6Backend, .Array (List.flatten (es.map (fun kv => [.BulkString kv.1, kv.2]))))) ∧
    HGetAllCmd.execute ⟨ascii "k", true⟩ c6Backend =
      (c6Backend, .Array [.BulkString (ascii "a"), .Integer 2,
        .BulkString (ascii "b"), .Integer 1]) :=
  ⟨by decide,
    C6_hgetall_sorted c6Backend (ascii "k")
      [(ascii "b", RespFrame.Integer 1), (ascii "a", RespFrame.Integer 2)] (by decide),
    by decide⟩

/-- `str::parse::<usize>` rejects a leading minus sign outright. -/
theorem parseUsize_minus (t : Bytes) : parseUsize (45 :: t) = none := by
  simp [parseUsize, allDigits, isDigit]

/-- `parse_length` never succeeds on a header whose length field starts with
a minus sign: the first CRLF is at index 2 or later, so the parsed slice
starts with byte 45, which `parse::<usize>` rejects. -/
theorem parse_length_minus (p : Nat) (rest : Bytes) (r : Nat × Nat) :
    parse_length (p :: 45 :: rest) [p] ≠ .ok r := by
  intro hok
  unfold parse_length at hok
  cases hex : extract_simple_resp (p :: 45 :: rest) [p] with
  | error e =>
    rw [hex] at hok
    exact Except.noConfusion hok
  | ok e =>
    rw [hex] at hok
    have hfind : find_crlf (p :: 45 :: rest) 1 = some e := by
      unfold extract_simple_resp at hex
      by_cases h3 : (p :: 45 :: rest).length < 3
      · rw [if_pos h3] at hex
        exact Except.noConfusion hex
      · rw [if_neg h3] at hex
        have hpfx : List.isPrefixOf [p] (p :: 45 :: rest) = true := by
          simp [List.isPrefixOf]
        rw [if_neg (by simp [hpfx])] at hex
        cases hf : find_crlf (p :: 45 :: rest) 1 with
        | none =>
          rw [hf] at hex
          exact Except.noConfusion hex
        | some e2 =>
          rw [hf] at hex
          exact congrArg some (Except.ok.inj hex)
    obtain ⟨h1e, h2e, h3e⟩ := find_crlf_some (p :: 45 :: rest) e hfind
    have hne : e ≠ 1 := by
      intro h
      subst h
      simp [List.getD] at h3e
    have h21 : e - 1 = (e - 2) + 1 := by omega
    have hps : parseUsize ((45 :: rest).take (e - 1)) = none := by
      rw [h21, List.take_succ_cons]
      exact parseUsize_minus _
    simp [hps] at hok

/-- Claim C9 (counterexample): `$+5\r\nhello\r\n` carries a leading sign in
its length field yet decodes successfully to the BulkString `hello` — it is
not rejected as a protocol error, because `parse::<usize>` accepts a
leading plus. -/
theorem C9_counterexample :
    RespFrame.decode (ascii "$+5\r\nhello\r\n") = .ok (.BulkString (ascii "hello"), []) :=
  by decide

/-- Claim C9 (amended): a length field with a leading minus sign never
parses, for every length-prefixed header byte (`$`, `*`, `%`, `~`); but a
leading plus sign in a length is accepted (`$+5\r\nhello\r\n` decodes), the
exact legacy shapes aside (`$-2`, `%-1`, `~-1` are ParseIntError protocol
errors), and Integer and Double payloads accept a leading sign. -/
theorem C9_length_sign_rules (p : Nat) (buf : Bytes)
    (_hp : p ∈ [36, 42, 37, 126]) (hb : buf.take 2 = [p, 45]) :
    (∀ r : Nat × Nat, parse_length buf [p] ≠ .ok r) ∧
    RespFrame.decode (ascii "$+5\r\nhello\r\n") = .ok (.BulkString (ascii "hello"), []) ∧
    RespFrame.decode (ascii "$-2\r\nab\r\n") = .error .parseIntError ∧
    RespFrame.decode (ascii "%-1\r\n") = .error .parseIntError ∧
    RespFrame.decode (ascii "~-1\r\n") = .error .parseIntError ∧
    RespFrame.decode (ascii ":-42\r\n") = .ok (.Integer (-42), []) ∧
    RespFrame.decode (ascii ":+42\r\n") = .ok (.Integer 42, []) ∧
    RespFrame.decode (ascii ",-1.5\r\n") = .ok (.Double (ascii "-1.5"), []) := by
  have hbuf : ∃ rest, buf = p :: 45 :: rest := by
    cases buf with
    | nil => simp at hb
    | cons a t =>
      cases t with
      | nil => simp at hb
      | cons a2 t2 =>
        simp [List.take] at hb
        exact ⟨t2, by rw [hb.1, hb.2]⟩
  obtain ⟨rest, rfl⟩ := hbuf
  exact ⟨fun r => parse_length_minus p rest r, by decide, by decide, by decide,
    by decide, by decide, by decide, by decide⟩

/-- Witness for C9 (amended), at the header `$-2\r\nab\r\n`. -/
theorem C9_length_sign_rules_witness :
    ((36 : Nat) ∈ [36, 42, 37, 126]) ∧ (ascii "$-2\r\nab\r\n").take 2 = [36, 45] ∧
    parse_length (ascii "$-2\r\nab\r\n") [36] ≠ .ok (3, 2) :=
  ⟨by decide, by decide,
    (C9_length_sign_rules 36 (ascii "$-2\r\nab\r\n") (by decide) (by decide)).1 (3, 2)⟩

end SimpleRedis
